import Mathlib

/-!
Shallow embedding of the fleet monitor subsystem
(`internal/cmd/monitor/reconciler/`): event-type filters, resource filters,
the statistics tracker, the change-detection log functions, the monitor
reconcilers, the object cache and the bundle query.  Go maps are embedded as
association lists or as Lean functions, Go `int64` counters as `Int`
(wraparound at 2^63 is not modelled; no claim involves counts of that
magnitude), fallible Go calls as `Except String`.
-/

namespace Fleet

/-- Label maps (`map[string]string` in Go) as association lists. -/
abbrev Labels := List (String × String)

/-- Lookup in a Go string map: a missing key yields the empty string. -/
def lookupDefault (m : Labels) (k : String) : String :=
  match m.find? (fun p => p.1 = k) with
  | some p => p.2
  | none => ""

/-- EventType from stats.go is a string type in Go; unknown values are
possible, so it is embedded as `String`, not as a closed inductive. -/
abbrev EventType := String

def EventTypeGenerationChange : EventType := "generation-change"

def EventTypeStatusChange : EventType := "status-change"

def EventTypeAnnotationChange : EventType := "annotation-change"

def EventTypeLabelChange : EventType := "label-change"

def EventTypeResourceVersionChange : EventType := "resourceversion-change"

def EventTypeDeletion : EventType := "deletion"

def EventTypeNotFound : EventType := "not-found"

def EventTypeCreate : EventType := "create"

/-- EventTypeFilters from bundle_query.go: which event kinds produce detailed
log lines. -/
structure EventTypeFilters where
  generationChange : Bool
  statusChange : Bool
  annotationChange : Bool
  labelChange : Bool
  resourceVersionChange : Bool
  deletion : Bool
  notFound : Bool
  create : Bool
  triggeredBy : Bool
deriving DecidableEq, Repr

/-- The zero-value filter (no flag explicitly set). -/
def EventTypeFilters.empty : EventTypeFilters :=
  ⟨false, false, false, false, false, false, false, false, false⟩

/-- EventTypeFilters.IsEmpty: true if no flag was set (then all events log). -/
def EventTypeFilters.IsEmpty (f : EventTypeFilters) : Bool :=
  !f.generationChange && !f.statusChange && !f.annotationChange &&
  !f.labelChange && !f.resourceVersionChange && !f.deletion &&
  !f.notFound && !f.create && !f.triggeredBy

/-- EventTypeFilters.ShouldLog: whether the given event type produces detailed
log lines.  The Go switch on the string-typed event kind, with unknown kinds
always logged, is embedded as an if-chain with a final `true`. -/
def EventTypeFilters.ShouldLog (f : EventTypeFilters) (eventType : EventType) : Bool :=
  if f.IsEmpty then true
  else if eventType = EventTypeGenerationChange then f.generationChange
  else if eventType = EventTypeStatusChange then f.statusChange
  else if eventType = EventTypeAnnotationChange then f.annotationChange
  else if eventType = EventTypeLabelChange then f.labelChange
  else if eventType = EventTypeResourceVersionChange then f.resourceVersionChange
  else if eventType = EventTypeDeletion then f.deletion
  else if eventType = EventTypeNotFound then f.notFound
  else if eventType = EventTypeCreate then f.create
  else true

/-- EventTypeFilters.ShouldLogTrigger: whether triggered-by events produce
detailed log lines. -/
def EventTypeFilters.ShouldLogTrigger (f : EventTypeFilters) : Bool :=
  if f.IsEmpty then true else f.triggeredBy

/-- Modelled from the spec: the compiled form of a Go regular expression
(`regexp.Regexp`, external library).  Only its `MatchString` behaviour is
relevant, so it is embedded as a predicate on strings. -/
def Regex := String → Bool

/-- ResourceFilter from bundle_query.go: namespace/name patterns plus the
compiled regexes (`nil` before `Compile` runs, embedded as `none`). -/
structure ResourceFilter where
  namespacePattern : String
  namePattern : String
  namespaceRegex : Option Regex
  nameRegex : Option Regex

/-- ResourceFilter.Matches from bundle_query.go.  The Go receiver may be a nil
pointer, embedded as `Option ResourceFilter`. -/
def resourceFilterMatches (f : Option ResourceFilter) (ns name : String) : Bool :=
  match f with
  | none => true
  | some f =>
    if f.namespacePattern = "" ∧ f.namePattern = "" then true
    else
      let namespaceMatch :=
        f.namespacePattern = "" ||
          (match f.namespaceRegex with
           | some r => r ns
           | none => false)
      let nameMatch :=
        f.namePattern = "" ||
          (match f.nameRegex with
           | some r => r name
           | none => false)
      namespaceMatch && nameMatch

/-- Claim C7: a nil ResourceFilter matches every (namespace, name) pair, and
so does a filter whose namespace pattern and name pattern are both empty,
whatever its compiled regex fields hold. -/
theorem resourceFilter_nil_or_empty_matches_all
    (ns name : String) (r1 r2 : Option Regex) :
    resourceFilterMatches none ns name = true ∧
    resourceFilterMatches (some ⟨"", "", r1, r2⟩) ns name = true := by
  constructor
  · rfl
  · simp [resourceFilterMatches]

/-- Claim C10: a non-nil ResourceFilter with a non-empty namespace pattern or
a non-empty name pattern, whose compiled regexes are still nil (Compile not
called), rejects every (namespace, name) pair. -/
theorem resourceFilter_uncompiled_rejects
    (ns name pNs pName : String)
    (h : pNs ≠ "" ∨ pName ≠ "") :
    resourceFilterMatches (some ⟨pNs, pName, none, none⟩) ns name = false := by
  rcases h with h | h <;> simp [resourceFilterMatches, h]

/-- Witness for C10 at a concrete uncompiled filter. -/
theorem resourceFilter_uncompiled_rejects_witness :
    ("^fleet-" ≠ "" ∨ "" ≠ "") ∧
    resourceFilterMatches (some ⟨"^fleet-", "", none, none⟩) "fleet-local" "b" = false :=
  ⟨Or.inl (by decide),
   resourceFilter_uncompiled_rejects "fleet-local" "b" "^fleet-" "" (Or.inl (by decide))⟩

/-! ## Statistics tracker (stats.go) -/

/-- ResourceKey from stats.go. -/
structure ResourceKey where
  resourceType : String
  ns : String
  name : String
deriving DecidableEq, Repr

/-- ResourceKey.String from stats.go. -/
def ResourceKey.keyString (r : ResourceKey) : String :=
  if r.ns = "" then r.name else r.ns ++ "/" ++ r.name

/-- ResourceStats from stats.go; the two Go count maps are association
lists. -/
structure ResourceStats where
  counts : List (EventType × Int)
  triggeredBy : List (String × Int)
  total : Int
deriving DecidableEq, Repr

def emptyResourceStats : ResourceStats := ⟨[], [], 0⟩

/-- `m[k]++` on a Go counter map (a missing key counts as zero). -/
def bumpCount {α : Type} [DecidableEq α] : List (α × Int) → α → List (α × Int)
  | [], k => [(k, 1)]
  | (k', v) :: rest, k =>
    if k' = k then (k', v + 1) :: rest else (k', v) :: bumpCount rest k

/-- StatsTracker from stats.go.  The mutex serialises calls and is not
modelled; `startTime`/`lastSummaryTime` are wall-clock fields used only for
the reported interval, also not modelled. -/
structure StatsTracker where
  stats : List (ResourceKey × ResourceStats)

/-- `s.stats[key]` lazily created then mutated through `f`, as in
RecordEvent / RecordTrigger. -/
def updateStats (l : List (ResourceKey × ResourceStats)) (key : ResourceKey)
    (f : ResourceStats → ResourceStats) : List (ResourceKey × ResourceStats) :=
  match l with
  | [] => [(key, f emptyResourceStats)]
  | (k, v) :: rest =>
    if k = key then (k, f v) :: rest else (k, v) :: updateStats rest key f

/-- StatsTracker.RecordEvent from stats.go: bump the per-kind counter and the
per-resource total. -/
def RecordEvent (s : StatsTracker) (resourceType ns name : String)
    (eventType : EventType) : StatsTracker :=
  ⟨updateStats s.stats ⟨resourceType, ns, name⟩
    (fun st => { st with counts := bumpCount st.counts eventType,
                         total := st.total + 1 })⟩

/-- StatsTracker.RecordTrigger from stats.go: bump the per-trigger-type
counter and the per-resource total. -/
def RecordTrigger (s : StatsTracker) (resourceType ns name : String)
    (triggerResourceType : String) : StatsTracker :=
  ⟨updateStats s.stats ⟨resourceType, ns, name⟩
    (fun st => { st with triggeredBy := bumpCount st.triggeredBy triggerResourceType,
                         total := st.total + 1 })⟩

/-- Totals from stats.go. -/
structure Totals where
  totalResourcesMonitored : Nat
  totalEvents : Int
deriving DecidableEq, Repr

/-- Summary from stats.go; the timestamp and interval are wall-clock data,
not modelled. -/
structure Summary where
  summary : List (String × List (String × ResourceStats))
  totals : Totals
deriving DecidableEq, Repr

/-- `grouped[rt][key] = st` on the nested Go map built by GetSummary
(assignment overwrites an existing entry). -/
def setAssoc (l : List (String × ResourceStats)) (k : String)
    (v : ResourceStats) : List (String × ResourceStats) :=
  match l with
  | [] => [(k, v)]
  | (k', v') :: rest =>
    if k' = k then (k, v) :: rest else (k', v') :: setAssoc rest k v

def groupInsert (g : List (String × List (String × ResourceStats)))
    (rt key : String) (st : ResourceStats) :
    List (String × List (String × ResourceStats)) :=
  match g with
  | [] => [(rt, [(key, st)])]
  | (t, entries) :: rest =>
    if t = rt then (t, setAssoc entries key st) :: rest
    else (t, entries) :: groupInsert rest rt key st

/-- StatsTracker.GetSummary from stats.go: group the per-resource stats by
resource type then by the key's string form, copying each entry, and sum the
totals.  The Go deep copy of each ResourceStats is a value copy here. -/
def GetSummary (s : StatsTracker) : Summary :=
  let grouped := s.stats.foldl
    (fun acc p => groupInsert acc p.1.resourceType p.1.keyString p.2) []
  let totalEvents := s.stats.foldl (fun acc p => acc + p.2.total) (0 : Int)
  ⟨grouped, ⟨s.stats.length, totalEvents⟩⟩

/-- Per-resource lookup into a Summary, following the JSON shape
`summary[resourceType]["namespace/name"]`. -/
def summaryLookup (sm : Summary) (rt key : String) : Option ResourceStats :=
  match sm.summary.find? (fun p => p.1 = rt) with
  | none => none
  | some p => (p.2.find? (fun q => q.1 = key)).map (fun q => q.2)

/-- StatsTracker.Reset from stats.go: clears all statistics (the interval
anchor it also resets is wall-clock data, not modelled). -/
def Reset (_ : StatsTracker) : StatsTracker := ⟨[]⟩

/-- One recorded call against the tracker for a fixed resource key. -/
inductive StatsOp where
  | event (eventType : EventType)
  | trigger (triggerResourceType : String)
deriving DecidableEq, Repr

def applyOp (s : StatsTracker) (key : ResourceKey) : StatsOp → StatsTracker
  | .event et => RecordEvent s key.resourceType key.ns key.name et
  | .trigger tt => RecordTrigger s key.resourceType key.ns key.name tt

def applyOps (s : StatsTracker) (key : ResourceKey) : List StatsOp → StatsTracker
  | [] => s
  | op :: rest => applyOps (applyOp s key op) key rest

def countEvents : List StatsOp → Nat
  | [] => 0
  | .event _ :: rest => countEvents rest + 1
  | .trigger _ :: rest => countEvents rest

def countTriggers : List StatsOp → Nat
  | [] => 0
  | .event _ :: rest => countTriggers rest
  | .trigger _ :: rest => countTriggers rest + 1

theorem countEvents_add_countTriggers (ops : List StatsOp) :
    countEvents ops + countTriggers ops = ops.length := by
  induction ops with
  | nil => rfl
  | cons op rest ih =>
    cases op <;> simp [countEvents, countTriggers, List.length_cons] <;> omega

theorem applyOp_single (key : ResourceKey) (st : ResourceStats) (op : StatsOp) :
    ∃ st', (applyOp ⟨[(key, st)]⟩ key op).stats = [(key, st')] ∧
      st'.total = st.total + 1 := by
  cases op with
  | event et =>
    refine ⟨{ st with counts := bumpCount st.counts et,
                      total := st.total + 1 }, ?_, rfl⟩
    simp [applyOp, RecordEvent, updateStats]
  | trigger tt =>
    refine ⟨{ st with triggeredBy := bumpCount st.triggeredBy tt,
                      total := st.total + 1 }, ?_, rfl⟩
    simp [applyOp, RecordTrigger, updateStats]

theorem applyOps_single (key : ResourceKey) (ops : List StatsOp) :
    ∀ st : ResourceStats, ∃ st',
      (applyOps ⟨[(key, st)]⟩ key ops).stats = [(key, st')] ∧
      st'.total = st.total + ops.length := by
  induction ops with
  | nil => intro st; exact ⟨st, rfl, by simp⟩
  | cons op rest ih =>
    intro st
    obtain ⟨st1, h1, htot1⟩ := applyOp_single key st op
    obtain ⟨st', h', htot'⟩ := ih st1
    have hrepr : applyOp ⟨[(key, st)]⟩ key op = ⟨[(key, st1)]⟩ := by
      cases happ : applyOp ⟨[(key, st)]⟩ key op
      simp_all
    refine ⟨st', ?_, ?_⟩
    · show (applyOps (applyOp ⟨[(key, st)]⟩ key op) key rest).stats = _
      rw [hrepr]
      exact h'
    · rw [htot', htot1]
      push_cast [List.length_cons]
      ring

/-- Claim C2: starting from a fresh tracker (or one just Reset, whose stats
map is empty), after any non-empty sequence of RecordEvent and RecordTrigger
calls for one key, GetSummary reports that resource's total as exactly the
number of RecordEvent calls plus the number of RecordTrigger calls. -/
theorem statsTracker_total_events (t : StatsTracker) (key : ResourceKey)
    (ops : List StatsOp) (h0 : t.stats = []) (hne : ops ≠ []) :
    ∃ st, summaryLookup (GetSummary (applyOps t key ops))
        key.resourceType key.keyString = some st ∧
      st.total = (countEvents ops : Int) + (countTriggers ops : Int) := by
  match ops, hne with
  | op :: rest, _ =>
    have hfirst : ∃ st1, applyOp t key op = ⟨[(key, st1)]⟩ ∧ st1.total = 1 := by
      cases op with
      | event et =>
        refine ⟨⟨bumpCount [] et, [], 1⟩, ?_, rfl⟩
        cases t
        simp_all [applyOp, RecordEvent, updateStats, emptyResourceStats]
      | trigger tt =>
        refine ⟨⟨[], bumpCount [] tt, 1⟩, ?_, rfl⟩
        cases t
        simp_all [applyOp, RecordTrigger, updateStats, emptyResourceStats]
    obtain ⟨st1, h1, htot1⟩ := hfirst
    obtain ⟨st', hstats, htot⟩ := applyOps_single key rest st1
    have hrepr : applyOps ⟨[(key, st1)]⟩ key rest = ⟨[(key, st')]⟩ := by
      cases happ : applyOps ⟨[(key, st1)]⟩ key rest
      simp_all
    refine ⟨st', ?_, ?_⟩
    · show summaryLookup (GetSummary (applyOps (applyOp t key op) key rest)) _ _ = _
      rw [h1, hrepr]
      simp [GetSummary, summaryLookup, groupInsert, List.find?]
    · rw [htot, htot1]
      have h := countEvents_add_countTriggers (op :: rest)
      simp only [List.length_cons] at h ⊢
      omega

/-- Witness for C2: two events and a trigger yield a reported total of 3. -/
theorem statsTracker_total_events_witness :
    (⟨[]⟩ : StatsTracker).stats = [] ∧
    ([StatsOp.event EventTypeGenerationChange,
      StatsOp.trigger "BundleDeployment",
      StatsOp.event EventTypeStatusChange] ≠ ([] : List StatsOp)) ∧
    ∃ st, summaryLookup
        (GetSummary (applyOps ⟨[]⟩ ⟨"Bundle", "fleet-local", "b1"⟩
          [StatsOp.event EventTypeGenerationChange,
           StatsOp.trigger "BundleDeployment",
           StatsOp.event EventTypeStatusChange]))
        (ResourceKey.mk "Bundle" "fleet-local" "b1").resourceType
        (ResourceKey.mk "Bundle" "fleet-local" "b1").keyString = some st ∧
      st.total = (countEvents [StatsOp.event EventTypeGenerationChange,
           StatsOp.trigger "BundleDeployment",
           StatsOp.event EventTypeStatusChange] : Int) +
        (countTriggers [StatsOp.event EventTypeGenerationChange,
           StatsOp.trigger "BundleDeployment",
           StatsOp.event EventTypeStatusChange] : Int) :=
  ⟨rfl, by decide,
   statsTracker_total_events ⟨[]⟩ ⟨"Bundle", "fleet-local", "b1"⟩ _ rfl (by decide)⟩

/-! ## Change detection (monitor.go)

Each `log*` function is embedded as a pure function returning the trace of
`RecordEvent` calls it makes on the global tracker and the detailed log lines
it emits.  Spec and status values are opaque snapshots (`interface{}` in Go),
embedded as strings; the external semantic-equality and diff collaborators
are modelled below. -/

/-- Optional lookup in a label map. -/
def lookupLabel (m : Labels) (k : String) : Option String :=
  (m.find? (fun p => p.1 = k)).map (fun p => p.2)

/-- Modelled from the spec: `equality.Semantic.DeepEqual` (k8s apimachinery,
external) on opaque snapshots — equality of the snapshot. -/
def semanticDeepEqual (a b : String) : Bool := a = b

/-- Modelled from the spec: `cmp.Diff` (go-cmp, external) on opaque
snapshots — the empty string exactly when the two values are equal. -/
def cmpDiff (a b : String) : String := if a = b then "" else "values differ"

/-- Modelled from the spec: `equality.Semantic.DeepEqual` on Go string maps —
order-insensitive map equality on association lists. -/
def labelsSemEq (a b : Labels) : Bool :=
  a.all (fun p => lookupLabel b p.1 == some p.2) &&
  b.all (fun p => lookupLabel a p.1 == some p.2)

/-- One RecordEvent call made against the global stats tracker. -/
structure RecEvent where
  resourceType : String
  ns : String
  name : String
  eventType : EventType
deriving DecidableEq, Repr

/-- One detailed log line: its `event` field and an opaque payload. -/
structure LogLine where
  event : String
  payload : String
deriving DecidableEq, Repr

/-- The slice of a watched Kubernetes object that the change-detection
functions read (`client.Object` in Go): metadata, plus opaque spec and
status snapshots. -/
structure MObj where
  ns : String
  name : String
  generation : Int
  resourceVersion : String
  specRepr : String
  statusRepr : String
  annotations : Labels
  labels : Labels
  finalizers : List String
  ownerReferences : List String
  managedFields : List String
  deletionTimestamp : Option String
deriving DecidableEq, Repr

/-- logSpecChange from monitor.go: fires iff the generation changed; always
records, logs one line (diff or identical-spec notice) only under the
two-layer gate. -/
def logSpecChange (detailedLogs : Bool) (eventFilters : EventTypeFilters)
    (resourceType ns name : String) (oldSpec newSpec : String)
    (oldGen newGen : Int) : List RecEvent × List LogLine :=
  if oldGen = newGen then ([], [])
  else
    ([⟨resourceType, ns, name, EventTypeGenerationChange⟩],
     if detailedLogs && eventFilters.ShouldLog EventTypeGenerationChange then
       if cmpDiff oldSpec newSpec ≠ "" then
         [⟨"generation-change", cmpDiff oldSpec newSpec⟩]
       else
         [⟨"generation-change", "spec appears identical"⟩]
     else [])

/-- logStatusChange from monitor.go: fires iff the statuses are not
semantically equal (the JSON-marshalling fallback affects only the payload
and is not modelled). -/
def logStatusChange (detailedLogs : Bool) (eventFilters : EventTypeFilters)
    (resourceType ns name : String) (oldStatus newStatus : String) :
    List RecEvent × List LogLine :=
  if semanticDeepEqual oldStatus newStatus then ([], [])
  else
    ([⟨resourceType, ns, name, EventTypeStatusChange⟩],
     if detailedLogs && eventFilters.ShouldLog EventTypeStatusChange then
       [⟨"status-change", cmpDiff oldStatus newStatus⟩]
     else [])

def joinComma : List String → String
  | [] => ""
  | [x] => x
  | x :: rest => x ++ ", " ++ joinComma rest

/-- The metadata inspection of logResourceVersionChangeWithMetadata:
which of finalizers / ownerReferences / managedFields differ. -/
def metadataChanges (oldO newO : MObj) : List String :=
  (if oldO.finalizers = newO.finalizers then [] else ["finalizers"]) ++
  (if oldO.ownerReferences = newO.ownerReferences then [] else ["ownerReferences"]) ++
  (if oldO.managedFields = newO.managedFields then [] else ["managedFields"])

/-- logResourceVersionChangeWithMetadata from monitor.go: fires iff the
resource-version strings differ; always records, logs (with a best-effort
reason) only under the two-layer gate. -/
def logResourceVersionChangeWithMetadata (detailedLogs : Bool)
    (eventFilters : EventTypeFilters) (resourceType ns name : String)
    (oldO newO : MObj) : List RecEvent × List LogLine :=
  if oldO.resourceVersion = newO.resourceVersion then ([], [])
  else
    ([⟨resourceType, ns, name, EventTypeResourceVersionChange⟩],
     if detailedLogs && eventFilters.ShouldLog EventTypeResourceVersionChange then
       [⟨"resourceversion-change",
         if metadataChanges oldO newO = [] then
           "cache sync or unknown metadata update"
         else
           "metadata update: " ++ joinComma (metadataChanges oldO newO)⟩]
     else [])

/-- logAnnotationChange from monitor.go. -/
def logAnnotationChange (detailedLogs : Bool) (eventFilters : EventTypeFilters)
    (resourceType ns name : String) (oldAnnotations newAnnotations : Labels) :
    List RecEvent × List LogLine :=
  if labelsSemEq oldAnnotations newAnnotations then ([], [])
  else
    ([⟨resourceType, ns, name, EventTypeAnnotationChange⟩],
     if detailedLogs && eventFilters.ShouldLog EventTypeAnnotationChange then
       [⟨"annotation-change", "diff"⟩]
     else [])

/-- logLabelChange from monitor.go. -/
def logLabelChange (detailedLogs : Bool) (eventFilters : EventTypeFilters)
    (resourceType ns name : String) (oldLabels newLabels : Labels) :
    List RecEvent × List LogLine :=
  if labelsSemEq oldLabels newLabels then ([], [])
  else
    ([⟨resourceType, ns, name, EventTypeLabelChange⟩],
     if detailedLogs && eventFilters.ShouldLog EventTypeLabelChange then
       [⟨"label-change", "diff"⟩]
     else [])

/-- logDeletion from monitor.go: fires unconditionally when called. -/
def logDeletion (detailedLogs : Bool) (eventFilters : EventTypeFilters)
    (resourceType ns name deletionTimestamp : String) :
    List RecEvent × List LogLine :=
  ([⟨resourceType, ns, name, EventTypeDeletion⟩],
   if detailedLogs && eventFilters.ShouldLog EventTypeDeletion then
     [⟨"deletion", deletionTimestamp⟩]
   else [])

/-- logNotFound from monitor.go: fires unconditionally when called. -/
def logNotFound (detailedLogs : Bool) (eventFilters : EventTypeFilters)
    (resourceType ns name : String) : List RecEvent × List LogLine :=
  ([⟨resourceType, ns, name, EventTypeNotFound⟩],
   if detailedLogs && eventFilters.ShouldLog EventTypeNotFound then
     [⟨"not-found", ""⟩]
   else [])

/-- logCreate from monitor.go: fires unconditionally when called. -/
def logCreate (detailedLogs : Bool) (eventFilters : EventTypeFilters)
    (resourceType ns name : String) (generation : Int) (resourceVersion : String) :
    List RecEvent × List LogLine :=
  ([⟨resourceType, ns, name, EventTypeCreate⟩],
   if detailedLogs && eventFilters.ShouldLog EventTypeCreate then
     [⟨"create", toString generation ++ "/" ++ resourceVersion⟩]
   else [])

/-- The change-detection pass the monitor reconcilers run on a cached
old object and a freshly fetched new object (spec, status, resource
version, annotations, labels — in the order of the Reconcile bodies). -/
def detectChanges (detailedLogs : Bool) (eventFilters : EventTypeFilters)
    (resourceType : String) (oldO newO : MObj) :
    List RecEvent × List LogLine :=
  ((logSpecChange detailedLogs eventFilters resourceType newO.ns newO.name
      oldO.specRepr newO.specRepr oldO.generation newO.generation).1 ++
   (logStatusChange detailedLogs eventFilters resourceType newO.ns newO.name
      oldO.statusRepr newO.statusRepr).1 ++
   (logResourceVersionChangeWithMetadata detailedLogs eventFilters
      resourceType newO.ns newO.name oldO newO).1 ++
   (logAnnotationChange detailedLogs eventFilters resourceType newO.ns
      newO.name oldO.annotations newO.annotations).1 ++
   (logLabelChange detailedLogs eventFilters resourceType newO.ns
      newO.name oldO.labels newO.labels).1,
   (logSpecChange detailedLogs eventFilters resourceType newO.ns newO.name
      oldO.specRepr newO.specRepr oldO.generation newO.generation).2 ++
   (logStatusChange detailedLogs eventFilters resourceType newO.ns newO.name
      oldO.statusRepr newO.statusRepr).2 ++
   (logResourceVersionChangeWithMetadata detailedLogs eventFilters
      resourceType newO.ns newO.name oldO newO).2 ++
   (logAnnotationChange detailedLogs eventFilters resourceType newO.ns
      newO.name oldO.annotations newO.annotations).2 ++
   (logLabelChange detailedLogs eventFilters resourceType newO.ns
      newO.name oldO.labels newO.labels).2)

theorem logSpecChange_events_kind {d : Bool} {f : EventTypeFilters}
    {rt ns name os nsp : String} {og ng : Int} {ev : RecEvent}
    (h : ev ∈ (logSpecChange d f rt ns name os nsp og ng).1) :
    ev.eventType = EventTypeGenerationChange := by
  by_cases hg : og = ng
  · simp [logSpecChange, hg] at h
  · simp [logSpecChange, hg] at h
    subst h
    rfl

theorem logStatusChange_events_kind {d : Bool} {f : EventTypeFilters}
    {rt ns name os nst : String} {ev : RecEvent}
    (h : ev ∈ (logStatusChange d f rt ns name os nst).1) :
    ev.eventType = EventTypeStatusChange := by
  by_cases hg : semanticDeepEqual os nst
  · simp [logStatusChange, hg] at h
  · simp [logStatusChange, hg] at h
    subst h
    rfl

theorem logAnnotationChange_events_kind {d : Bool} {f : EventTypeFilters}
    {rt ns name : String} {oa na : Labels} {ev : RecEvent}
    (h : ev ∈ (logAnnotationChange d f rt ns name oa na).1) :
    ev.eventType = EventTypeAnnotationChange := by
  by_cases hg : labelsSemEq oa na
  · simp [logAnnotationChange, hg] at h
  · simp [logAnnotationChange, hg] at h
    subst h
    rfl

theorem logLabelChange_events_kind {d : Bool} {f : EventTypeFilters}
    {rt ns name : String} {ol nl : Labels} {ev : RecEvent}
    (h : ev ∈ (logLabelChange d f rt ns name ol nl).1) :
    ev.eventType = EventTypeLabelChange := by
  by_cases hg : labelsSemEq ol nl
  · simp [logLabelChange, hg] at h
  · simp [logLabelChange, hg] at h
    subst h
    rfl

/-- Claim C3: the recorded statistics of the change-detection functions do
not depend on the detailed-logs flag or on the event-type filters, and a
detailed log line is emitted only when the flag is set AND the filter allows
the kind. -/
theorem changeDetection_stats_independent_of_logging
    (d1 d2 : Bool) (f1 f2 : EventTypeFilters) (rt ns name : String)
    (oldSpec newSpec : String) (oldGen newGen : Int)
    (oldStatus newStatus : String) :
    (logSpecChange d1 f1 rt ns name oldSpec newSpec oldGen newGen).1 =
      (logSpecChange d2 f2 rt ns name oldSpec newSpec oldGen newGen).1 ∧
    (logStatusChange d1 f1 rt ns name oldStatus newStatus).1 =
      (logStatusChange d2 f2 rt ns name oldStatus newStatus).1 ∧
    ((logSpecChange d1 f1 rt ns name oldSpec newSpec oldGen newGen).2 ≠ [] →
      d1 = true ∧ f1.ShouldLog EventTypeGenerationChange = true) ∧
    ((logStatusChange d1 f1 rt ns name oldStatus newStatus).2 ≠ [] →
      d1 = true ∧ f1.ShouldLog EventTypeStatusChange = true) := by
  refine ⟨?_, ?_, ?_, ?_⟩
  · by_cases h : oldGen = newGen <;> simp [logSpecChange, h]
  · by_cases h : semanticDeepEqual oldStatus newStatus <;>
      simp [logStatusChange, h]
  · intro hne
    by_cases h : oldGen = newGen
    · simp [logSpecChange, h] at hne
    · by_cases hg : d1 && f1.ShouldLog EventTypeGenerationChange
      · exact Bool.and_eq_true_iff.mp hg
      · simp [logSpecChange, h, hg] at hne
  · intro hne
    by_cases h : semanticDeepEqual oldStatus newStatus
    · simp [logStatusChange, h] at hne
    · by_cases hg : d1 && f1.ShouldLog EventTypeStatusChange
      · exact Bool.and_eq_true_iff.mp hg
      · simp [logStatusChange, h, hg] at hne

/-- Witness for C3 at a generation change with detailed logging on. -/
theorem changeDetection_stats_independent_witness :
    (logSpecChange true EventTypeFilters.empty "Bundle" "ns" "b" "s1" "s2" 1 2).2 ≠ [] ∧
    (true = true ∧ EventTypeFilters.empty.ShouldLog EventTypeGenerationChange = true) :=
  ⟨by decide,
   (changeDetection_stats_independent_of_logging true false
     EventTypeFilters.empty EventTypeFilters.empty "Bundle" "ns" "b"
     "s1" "s2" 1 2 "st" "st").2.2.1 (by decide)⟩

/-- Claim C4: the change-detection pass records a ResourceVersionChange event
exactly when the resource-version strings of old and new object differ,
whatever else differs. -/
theorem resourceVersionChange_iff_rv_differs (d : Bool) (f : EventTypeFilters)
    (rt : String) (oldO newO : MObj) :
    (oldO.resourceVersion = newO.resourceVersion →
      ∀ ev ∈ (detectChanges d f rt oldO newO).1,
        ev.eventType ≠ EventTypeResourceVersionChange) ∧
    (oldO.resourceVersion ≠ newO.resourceVersion →
      (⟨rt, newO.ns, newO.name, EventTypeResourceVersionChange⟩ : RecEvent) ∈
        (detectChanges d f rt oldO newO).1) := by
  constructor
  · intro hrv ev hev
    have h3 : (logResourceVersionChangeWithMetadata d f rt newO.ns newO.name
        oldO newO).1 = [] := by
      simp [logResourceVersionChangeWithMetadata, hrv]
    simp only [detectChanges, List.mem_append, h3, List.not_mem_nil,
      or_false, false_or] at hev
    rcases hev with ((h | h) | h) | h
    · rw [logSpecChange_events_kind h]; decide
    · rw [logStatusChange_events_kind h]; decide
    · rw [logAnnotationChange_events_kind h]; decide
    · rw [logLabelChange_events_kind h]; decide
  · intro hrv
    have h3 : (logResourceVersionChangeWithMetadata d f rt newO.ns newO.name
        oldO newO).1 =
        [⟨rt, newO.ns, newO.name, EventTypeResourceVersionChange⟩] := by
      simp [logResourceVersionChangeWithMetadata, hrv]
    simp only [detectChanges, List.mem_append, h3, List.mem_singleton]
    simp

/-- Witness for C4: same resource version on both sides, no rv event; then
differing resource versions, rv event present. -/
theorem resourceVersionChange_iff_rv_differs_witness :
    ("5" ≠ "6") ∧
    (⟨"Bundle", "ns", "b", EventTypeResourceVersionChange⟩ : RecEvent) ∈
      (detectChanges true EventTypeFilters.empty "Bundle"
        ⟨"ns", "b", 1, "5", "s", "st", [], [], [], [], [], none⟩
        ⟨"ns", "b", 1, "6", "s", "st", [], [], [], [], [], none⟩).1 :=
  ⟨by decide,
   (resourceVersionChange_iff_rv_differs true EventTypeFilters.empty "Bundle"
     ⟨"ns", "b", 1, "5", "s", "st", [], [], [], [], [], none⟩
     ⟨"ns", "b", 1, "6", "s", "st", [], [], [], [], [], none⟩).2 (by decide)⟩

/-! ## Monitor reconcilers (bundle_monitor.go / gitrepo_monitor.go)

Each Reconcile body is embedded as a pure state-transition function: the
cache before the call, the request, and the outcome of the single `Get` the
body may perform are inputs; the output carries the returned error, the new
cache, the trace of recorded events, the emitted log lines, and whether the
object fetch happened at all.  The cache here holds object values: every Go
call site stores `obj.DeepCopy()`, so value semantics is exact (the
reference-level behaviour of the cache itself is treated separately). -/

/-- types.NamespacedName. -/
structure NN where
  ns : String
  name : String
deriving DecidableEq, Repr

def cacheSet {α : Type} (c : NN → Option α) (key : NN) (o : α) :
    NN → Option α :=
  fun k => if k = key then some o else c k

def cacheDelete {α : Type} (c : NN → Option α) (key : NN) : NN → Option α :=
  fun k => if k = key then none else c k

/-- The outcome of the client `Get` performed by a Reconcile body. -/
inductive GetResult (α : Type) where
  | errNotFound
  | errOther (e : String)
  | found (o : α)

/-- The observable result of one Reconcile invocation. -/
structure MonOut (α : Type) where
  err : Option String
  cache : NN → Option α
  events : List RecEvent
  lines : List LogLine
  fetched : Bool

/-- HelmAppMonitorReconciler.Reconcile from bundle_monitor.go: the resource
filter is checked before anything else; a rejected request is a successful
no-op.  On not-found the cache entry is not deleted (this reconciler differs
from the GitRepo one there). -/
def helmAppMonitorReconcile (rf : Option ResourceFilter) (detailedLogs : Bool)
    (eventFilters : EventTypeFilters) (cache : NN → Option MObj) (req : NN)
    (get : GetResult MObj) : MonOut MObj :=
  if resourceFilterMatches rf req.ns req.name then
    match get with
    | .errNotFound =>
      let r := logNotFound detailedLogs eventFilters "HelmApp" req.ns req.name
      ⟨none, cache, r.1, r.2, true⟩
    | .errOther e => ⟨some e, cache, [], [], true⟩
    | .found o =>
      match o.deletionTimestamp with
      | some ts =>
        let r := logDeletion detailedLogs eventFilters "HelmApp" o.ns o.name ts
        ⟨none, cacheDelete cache req, r.1, r.2, true⟩
      | none =>
        match cache req with
        | none =>
          let r := logCreate detailedLogs eventFilters "HelmApp" o.ns o.name
            o.generation o.resourceVersion
          ⟨none, cacheSet cache req o, r.1, r.2, true⟩
        | some oldO =>
          let r := detectChanges detailedLogs eventFilters "HelmApp" oldO o
          ⟨none, cacheSet cache req o, r.1, r.2, true⟩
  else ⟨none, cache, [], [], false⟩

/-- A GitRepo object: the generic watched slice plus the GitRepo-specific
fields the reconciler logs about. -/
structure GObj where
  base : MObj
  specRepo : String
  specBranch : String
  specRevision : String
  specForceSyncGeneration : Int
  statusCommit : String
  statusWebhookCommit : String
deriving DecidableEq, Repr

/-- The GitRepo-specific detail lines (gitrepo_monitor.go lines 116-159),
gated only by the detailed-logs flag. -/
def gitRepoExtraLines (detailedLogs : Bool) (oldG newG : GObj) : List LogLine :=
  if detailedLogs then
    (if oldG.specRepo ≠ newG.specRepo then
       [⟨"repo-change", newG.specRepo⟩] else []) ++
    (if oldG.specBranch ≠ newG.specBranch then
       [⟨"branch-change", newG.specBranch⟩] else []) ++
    (if oldG.specRevision ≠ newG.specRevision then
       [⟨"revision-change", newG.specRevision⟩] else []) ++
    (if oldG.statusCommit ≠ newG.statusCommit then
       [⟨"commit-change", newG.statusCommit⟩] else []) ++
    (if oldG.statusWebhookCommit ≠ newG.statusWebhookCommit then
       [⟨"webhook-commit-change", newG.statusWebhookCommit⟩] else []) ++
    (if oldG.specForceSyncGeneration ≠ newG.specForceSyncGeneration then
       [⟨"force-sync-change", toString newG.specForceSyncGeneration⟩] else [])
  else []

/-- GitRepoMonitorReconciler.Reconcile from gitrepo_monitor.go: filter check
first; not-found deletes the cache entry and returns success; any other
fetch error is returned to the caller. -/
def gitRepoMonitorReconcile (rf : Option ResourceFilter) (detailedLogs : Bool)
    (eventFilters : EventTypeFilters) (cache : NN → Option GObj) (req : NN)
    (get : GetResult GObj) : MonOut GObj :=
  if resourceFilterMatches rf req.ns req.name then
    match get with
    | .errNotFound =>
      let r := logNotFound detailedLogs eventFilters "GitRepo" req.ns req.name
      ⟨none, cacheDelete cache req, r.1, r.2, true⟩
    | .errOther e => ⟨some e, cache, [], [], true⟩
    | .found o =>
      match o.base.deletionTimestamp with
      | some ts =>
        let r := logDeletion detailedLogs eventFilters "GitRepo" o.base.ns
          o.base.name ts
        ⟨none, cacheDelete cache req, r.1, r.2, true⟩
      | none =>
        match cache req with
        | none =>
          let r := logCreate detailedLogs eventFilters "GitRepo" o.base.ns
            o.base.name o.base.generation o.base.resourceVersion
          ⟨none, cacheSet cache req o, r.1, r.2, true⟩
        | some oldG =>
          let r := detectChanges detailedLogs eventFilters "GitRepo" oldG.base o.base
          ⟨none, cacheSet cache req o, r.1,
            r.2 ++ gitRepoExtraLines detailedLogs oldG o, true⟩
  else ⟨none, cache, [], [], false⟩

/-- Claim C8: when the resource filter rejects a request, both monitor
reconcilers that carry a filter return success immediately: no fetch, no
recorded event, no log line, cache unchanged. -/
theorem monitorReconcile_filtered_noop (rf : Option ResourceFilter)
    (detailedLogs : Bool) (eventFilters : EventTypeFilters) (req : NN)
    (cacheH : NN → Option MObj) (getH : GetResult MObj)
    (cacheG : NN → Option GObj) (getG : GetResult GObj)
    (h : resourceFilterMatches rf req.ns req.name = false) :
    helmAppMonitorReconcile rf detailedLogs eventFilters cacheH req getH =
      ⟨none, cacheH, [], [], false⟩ ∧
    gitRepoMonitorReconcile rf detailedLogs eventFilters cacheG req getG =
      ⟨none, cacheG, [], [], false⟩ := by
  constructor <;>
    simp [helmAppMonitorReconcile, gitRepoMonitorReconcile, h]

/-- Witness for C8 at a concrete uncompiled filter that rejects the
request. -/
theorem monitorReconcile_filtered_noop_witness :
    resourceFilterMatches (some ⟨"^fleet-", "", none, none⟩) "cattle" "r1" = false ∧
    (helmAppMonitorReconcile (some ⟨"^fleet-", "", none, none⟩) true
        EventTypeFilters.empty (fun _ => none) ⟨"cattle", "r1"⟩
        (.found ⟨"cattle", "r1", 1, "9", "s", "st", [], [], [], [], [], none⟩) =
      ⟨none, fun _ => none, [], [], false⟩ ∧
     gitRepoMonitorReconcile (some ⟨"^fleet-", "", none, none⟩) true
        EventTypeFilters.empty (fun _ => none) ⟨"cattle", "r1"⟩
        .errNotFound =
      ⟨none, fun _ => none, [], [], false⟩) :=
  ⟨by decide,
   monitorReconcile_filtered_noop (some ⟨"^fleet-", "", none, none⟩) true
     EventTypeFilters.empty ⟨"cattle", "r1"⟩ (fun _ => none)
     (.found ⟨"cattle", "r1", 1, "9", "s", "st", [], [], [], [], [], none⟩)
     (fun _ => none) .errNotFound (by decide)⟩

/-! ## Object cache (cache.go), reference level

A Go `client.Object` is a pointer into the mutable heap, so aliasing is
stated with an explicit heap: references are addresses, the cache map stores
references exactly as the Go map stores interface values holding pointers.
The mutex serialises calls and is not modelled. -/

/-- A heap of watched-object values addressed by reference. -/
def ObjHeap := Nat → MObj

/-- ObjectCache.Set from cache.go: `c.cache[key] = obj` stores the given
reference itself; no copy of the pointed-to object is taken. -/
def objectCacheSet (c : NN → Option Nat) (key : NN) (obj : Nat) :
    NN → Option Nat :=
  fun k => if k = key then some obj else c k

/-- ObjectCache.Get from cache.go. -/
def objectCacheGet (c : NN → Option Nat) (key : NN) : Option Nat := c key

/-- ObjectCache.Delete from cache.go. -/
def objectCacheDelete (c : NN → Option Nat) (key : NN) : NN → Option Nat :=
  fun k => if k = key then none else c k

/-- The snapshot read through Get: the value the stored reference points at
now. -/
def cacheSnapshot (h : ObjHeap) (c : NN → Option Nat) (key : NN) :
    Option MObj :=
  (objectCacheGet c key).map h

/-- In-place mutation of the object at one reference (a caller mutating the
object it passed to Set). -/
def heapWrite (h : ObjHeap) (addr : Nat) (v : MObj) : ObjHeap :=
  fun r => if r = addr then v else h r

/-- A concrete object value used in the cache-aliasing counterexample. -/
def cacheDemoV1 : MObj :=
  ⟨"ns", "b", 1, "1", "s", "st", [], [], [], [], [], none⟩

/-- The same object after its caller mutated the resource version. -/
def cacheDemoV2 : MObj :=
  ⟨"ns", "b", 1, "2", "s", "st", [], [], [], [], [], none⟩

/-- Counterexample to claim C9 as stated: Set stores the caller's reference,
so mutating the caller's object after Set changes the snapshot a subsequent
Get returns. -/
theorem objectCacheSet_aliases_counterexample :
    cacheSnapshot (heapWrite (fun _ => cacheDemoV1) 0 cacheDemoV2)
        (objectCacheSet (fun _ => none) ⟨"ns", "b"⟩ 0) ⟨"ns", "b"⟩ ≠
      cacheSnapshot (fun _ => cacheDemoV1)
        (objectCacheSet (fun _ => none) ⟨"ns", "b"⟩ 0) ⟨"ns", "b"⟩ := by
  decide

/-- Claim C9 amended: Set stores the given reference without copying, so the
snapshot Get returns is exactly the current value behind that reference —
insulated from writes to any other reference (which is why the call sites,
which always pass a fresh `DeepCopy`, never alias caller-mutable state), but
tracking writes through the stored reference itself. -/
theorem objectCacheSet_stores_reference (h : ObjHeap) (c : NN → Option Nat)
    (key : NN) (r rMut : Nat) (v : MObj) (hne : rMut ≠ r) :
    cacheSnapshot h (objectCacheSet c key r) key = some (h r) ∧
    cacheSnapshot (heapWrite h rMut v) (objectCacheSet c key r) key = some (h r) ∧
    cacheSnapshot (heapWrite h r v) (objectCacheSet c key r) key = some v := by
  refine ⟨?_, ?_, ?_⟩ <;>
    simp [cacheSnapshot, objectCacheGet, objectCacheSet, heapWrite,
      Ne.symm hne]

/-- Witness for the amended C9 at concrete references 0 and 1. -/
theorem objectCacheSet_stores_reference_witness :
    (1 ≠ 0) ∧
    (cacheSnapshot (fun _ => cacheDemoV1)
        (objectCacheSet (fun _ => none) ⟨"ns", "b"⟩ 0) ⟨"ns", "b"⟩ =
      some ((fun _ => cacheDemoV1) 0) ∧
     cacheSnapshot (heapWrite (fun _ => cacheDemoV1) 1 cacheDemoV2)
        (objectCacheSet (fun _ => none) ⟨"ns", "b"⟩ 0) ⟨"ns", "b"⟩ =
      some ((fun _ => cacheDemoV1) 0) ∧
     cacheSnapshot (heapWrite (fun _ => cacheDemoV1) 0 cacheDemoV2)
        (objectCacheSet (fun _ => none) ⟨"ns", "b"⟩ 0) ⟨"ns", "b"⟩ =
      some cacheDemoV2) :=
  ⟨by decide,
   objectCacheSet_stores_reference (fun _ => cacheDemoV1) (fun _ => none)
     ⟨"ns", "b"⟩ 0 1 cacheDemoV2 (by decide)⟩

/-! ## Bundle query (bundle_query.go)

The Kubernetes client is embedded as a record of the five fallible
operations the query performs; label-selector parsing and the per-bundle
matcher live outside src/ and are modelled from the spec. -/

/-- A parsed label selector: a predicate over label sets (spec glossary:
"a predicate over label sets used to match resources"). -/
def Selector := Labels → Bool

/-- Modelled from the spec: `metav1.LabelSelector` together with
`metav1.LabelSelectorAsSelector` (k8s apimachinery, external).  Parsing a
well-formed selector yields its predicate; a malformed selector fails. -/
structure LabelSelector where
  matchesLabels : Selector
  valid : Bool

/-- Modelled from the spec: `metav1.LabelSelectorAsSelector`. -/
def LabelSelectorAsSelector (s : LabelSelector) : Except String Selector :=
  if s.valid then .ok s.matchesLabels else .error "invalid selector"

/-- The slice of fleet.Cluster the query reads. -/
structure Cluster where
  ns : String
  name : String
  labels : Labels
deriving DecidableEq, Repr

/-- The slice of fleet.Bundle the query reads. -/
structure Bundle where
  ns : String
  name : String
  labels : Labels
  annotations : Labels
deriving DecidableEq, Repr

/-- The slice of fleet.ClusterGroup the query reads (`selector` is
`cg.Spec.Selector`, nil embedded as `none`). -/
structure ClusterGroup where
  ns : String
  name : String
  labels : Labels
  selector : Option LabelSelector

/-- The slice of fleet.BundleNamespaceMapping the query reads. -/
structure BundleNamespaceMapping where
  ns : String
  name : String
  bundleSelector : Option LabelSelector
  namespaceSelector : Option LabelSelector

/-- The slice of corev1.Namespace the query reads. -/
structure KNamespace where
  name : String
  labels : Labels

/-- The Kubernetes client operations used by bundleQueryImpl, each fallible:
bundles in a namespace, bundles in a namespace filtered by a selector,
all BundleNamespaceMappings, cluster groups in a namespace, and a single
namespace object. -/
structure KClient where
  listBundles : String → Except String (List Bundle)
  listBundlesSel : String → Selector → Except String (List Bundle)
  listMappings : Except String (List BundleNamespaceMapping)
  listClusterGroups : String → Except String (List ClusterGroup)
  getNamespace : String → Except String KNamespace

/-- BundleMapping from bundle_query.go (built from a
BundleNamespaceMapping). -/
structure BundleMapping where
  ns : String
  namespaceSelector : Option Selector
  bundleSelector : Option Selector
  noMatch : Bool

/-- newBundleMapping from bundle_query.go: a mapping missing either selector
matches nothing; otherwise both selectors are parsed (bundle selector first,
errors propagate). -/
def newBundleMapping (mapping : BundleNamespaceMapping) :
    Except String BundleMapping :=
  if mapping.bundleSelector.isNone || mapping.namespaceSelector.isNone then
    .ok ⟨mapping.ns, none, none, true⟩
  else
    match LabelSelectorAsSelector
        (mapping.bundleSelector.getD ⟨fun _ => false, false⟩) with
    | .error e => .error e
    | .ok bs =>
      match LabelSelectorAsSelector
          (mapping.namespaceSelector.getD ⟨fun _ => false, false⟩) with
      | .error e => .error e
      | .ok nss => .ok ⟨mapping.ns, some nss, some bs, false⟩

/-- BundleMapping.Bundles from bundle_query.go: nothing for a no-match
mapping, else the bundles of the mapping's namespace filtered by its bundle
selector (server side, one List call). -/
def BundleMapping.Bundles (b : BundleMapping) (c : KClient) :
    Except String (List Bundle) :=
  if b.noMatch then .ok []
  else c.listBundlesSel b.ns (b.bundleSelector.getD (fun _ => false))

/-- BundleMapping.MatchesNamespace from bundle_query.go: false for a
no-match mapping and when the namespace object cannot be fetched. -/
def BundleMapping.MatchesNamespace (b : BundleMapping) (c : KClient)
    (ns : String) : Bool :=
  if b.noMatch then false
  else
    match c.getNamespace ns with
    | .error _ => false
    | .ok nsObj => (b.namespaceSelector.getD (fun _ => false)) nsObj.labels

/-- The loop of clusterGroupsForCluster: groups without a selector or with
an unparseable selector are skipped, matching groups collected. -/
def clusterGroupsLoop (clusterLabels : Labels) :
    List ClusterGroup → List ClusterGroup
  | [] => []
  | cg :: rest =>
    match cg.selector with
    | none => clusterGroupsLoop clusterLabels rest
    | some s =>
      match LabelSelectorAsSelector s with
      | .error _ => clusterGroupsLoop clusterLabels rest
      | .ok sel =>
        if sel clusterLabels then cg :: clusterGroupsLoop clusterLabels rest
        else clusterGroupsLoop clusterLabels rest

/-- clusterGroupsForCluster from bundle_query.go. -/
def clusterGroupsForCluster (q : KClient) (cluster : Cluster) :
    Except String (List ClusterGroup) :=
  match q.listClusterGroups cluster.ns with
  | .error e => .error e
  | .ok cgs => .ok (clusterGroupsLoop cluster.labels cgs)

/-- clusterGroupsToLabelMap from bundle_query.go: the Go name-to-labels map,
as an association list (it is an opaque input to the external matcher). -/
def clusterGroupsToLabelMap (cgs : List ClusterGroup) :
    List (String × Labels) :=
  cgs.map (fun cg => (cg.name, cg.labels))

/-- `namespace + "/" + name`, the bundleSet key. -/
def bundleKey (b : Bundle) : String := b.ns ++ "/" ++ b.name

/-- bundleSet from bundle_query.go: a keyed map plus its key set.  Go sorts
the key set when extracting; here the key list is kept sorted at insertion,
which yields the same sorted extraction. -/
structure BundleSet where
  keys : List String
  map : String → Option Bundle

def newBundleSet : BundleSet := ⟨[], fun _ => none⟩

def insertSorted (k : String) : List String → List String
  | [] => [k]
  | x :: xs => if k ≤ x then k :: x :: xs else x :: insertSorted k xs

/-- bundleSet.insertSingle: the map entry is overwritten, the key set gains
the key. -/
def insertSingle (s : BundleSet) (b : Bundle) : BundleSet :=
  ⟨if s.keys.contains (bundleKey b) then s.keys
   else insertSorted (bundleKey b) s.keys,
   fun k => if k = bundleKey b then some b else s.map k⟩

/-- bundleSet.bundles: the values in sorted key order. -/
def bundleSetBundles (s : BundleSet) : List Bundle := s.keys.filterMap s.map

/-- The per-bundle step of getBundlesInScopeForCluster's first loop: agent
bundles of other clusters (well-known annotation, name not suffixed with
this cluster's name) are excluded. -/
def insertScoped (cluster : Cluster) (s : BundleSet) (b : Bundle) : BundleSet :=
  if lookupDefault b.annotations "objectset.rio.cattle.io/id" =
      "fleet-manage-agent" then
    if b.name = "fleet-agent-" ++ cluster.name then insertSingle s b else s
  else insertSingle s b

/-- The mapping loop of getBundlesInScopeForCluster: a mapping that fails to
parse is skipped; one whose namespace selector does not match the cluster
namespace is skipped; otherwise its bundles are listed (a failing List
aborts) and inserted. -/
def mappingsFold (q : KClient) (cluster : Cluster) :
    List BundleNamespaceMapping → BundleSet → Except String BundleSet
  | [], s => .ok s
  | m :: rest, s =>
    match newBundleMapping m with
    | .error _ => mappingsFold q cluster rest s
    | .ok bm =>
      if BundleMapping.MatchesNamespace bm q cluster.ns then
        match BundleMapping.Bundles bm q with
        | .error e => .error e
        | .ok bs => mappingsFold q cluster rest (bs.foldl insertSingle s)
      else mappingsFold q cluster rest s

/-- getBundlesInScopeForCluster from bundle_query.go. -/
def getBundlesInScopeForCluster (q : KClient) (cluster : Cluster) :
    Except String (List Bundle) :=
  match q.listBundles cluster.ns with
  | .error e => .error e
  | .ok items =>
    match q.listMappings with
    | .error e => .error e
    | .ok ms =>
      match mappingsFold q cluster ms
          (items.foldl (insertScoped cluster) newBundleSet) with
      | .error e => .error e
      | .ok s => .ok (bundleSetBundles s)

/-- Modelled from the spec: the per-bundle matcher built by `matcher.New`
(internal/cmd/controller/target/matcher, not under src/), evaluated against
the cluster name, the cluster-group name-to-labels map and the cluster
labels; Go's non-nil `*matchedTarget` result is a Bool here. -/
def MatcherFun := String → List (String × Labels) → Labels → Bool

/-- The partition loop of BundlesForCluster: a bundle whose matcher cannot
be built is skipped; the cluster groups are fetched inside the loop and a
failure there aborts the whole query (Go returns nil, nil, err). -/
def bundlesLoop (q : KClient) (mk : Bundle → Except String MatcherFun)
    (cluster : Cluster) :
    List Bundle → List Bundle → List Bundle →
      List Bundle × List Bundle × Option String
  | [], r, c => (r, c, none)
  | b :: rest, r, c =>
    match mk b with
    | .error _ => bundlesLoop q mk cluster rest r c
    | .ok f =>
      match clusterGroupsForCluster q cluster with
      | .error e => ([], [], some e)
      | .ok cgs =>
        if f cluster.name (clusterGroupsToLabelMap cgs) cluster.labels then
          bundlesLoop q mk cluster rest (r ++ [b]) c
        else
          bundlesLoop q mk cluster rest r (c ++ [b])

/-- BundlesForCluster from bundle_query.go, parameterised over the external
matcher constructor: returns (bundlesToRefresh, bundlesToCleanup, error),
with both lists empty whenever the error is set. -/
def BundlesForCluster (q : KClient) (mk : Bundle → Except String MatcherFun)
    (cluster : Cluster) : List Bundle × List Bundle × Option String :=
  match getBundlesInScopeForCluster q cluster with
  | .error e => ([], [], some e)
  | .ok bundles => bundlesLoop q mk cluster bundles [] []

/-- The decision the loop takes for one bundle: none when the matcher cannot
be built, otherwise the match outcome. -/
def matchDecision (mk : Bundle → Except String MatcherFun) (cluster : Cluster)
    (cgs : List ClusterGroup) (b : Bundle) : Option Bool :=
  match mk b with
  | .error _ => none
  | .ok f => some (f cluster.name (clusterGroupsToLabelMap cgs) cluster.labels)

/-- The bundles of a list whose match decision is `some v`: the loop's
refresh list for `v = true`, its cleanup list for `v = false`. -/
def selectList (mk : Bundle → Except String MatcherFun) (cluster : Cluster)
    (cgs : List ClusterGroup) (v : Bool) : List Bundle → List Bundle
  | [] => []
  | b :: rest =>
    if matchDecision mk cluster cgs b = some v then
      b :: selectList mk cluster cgs v rest
    else selectList mk cluster cgs v rest

theorem mem_selectList (mk : Bundle → Except String MatcherFun)
    (cluster : Cluster) (cgs : List ClusterGroup) (v : Bool) :
    ∀ (l : List Bundle) (b : Bundle),
      b ∈ selectList mk cluster cgs v l ↔
        b ∈ l ∧ matchDecision mk cluster cgs b = some v := by
  intro l
  induction l with
  | nil => intro b; simp [selectList]
  | cons x rest ih =>
    intro b
    by_cases hd : matchDecision mk cluster cgs x = some v
    · simp only [selectList, if_pos hd, List.mem_cons, ih]
      constructor
      · rintro (rfl | ⟨hb, hp⟩)
        · exact ⟨Or.inl rfl, hd⟩
        · exact ⟨Or.inr hb, hp⟩
      · rintro ⟨rfl | hb, hp⟩
        · exact Or.inl rfl
        · exact Or.inr ⟨hb, hp⟩
    · simp only [selectList, if_neg hd, List.mem_cons, ih]
      constructor
      · rintro ⟨hb, hp⟩
        exact ⟨Or.inr hb, hp⟩
      · rintro ⟨rfl | hb, hp⟩
        · exact absurd hp hd
        · exact ⟨hb, hp⟩

theorem bundlesLoop_eq (q : KClient) (mk : Bundle → Except String MatcherFun)
    (cluster : Cluster) (cgs : List ClusterGroup)
    (hcg : clusterGroupsForCluster q cluster = .ok cgs) :
    ∀ l r c, bundlesLoop q mk cluster l r c =
      (r ++ selectList mk cluster cgs true l,
       c ++ selectList mk cluster cgs false l, none) := by
  intro l
  induction l with
  | nil => intro r c; simp [bundlesLoop, selectList]
  | cons b rest ih =>
    intro r c
    cases hmk : mk b with
    | error e =>
      have hd : matchDecision mk cluster cgs b = none := by
        simp [matchDecision, hmk]
      simp [bundlesLoop, hmk, ih, selectList, hd]
    | ok f =>
      cases hf : f cluster.name (clusterGroupsToLabelMap cgs) cluster.labels with
      | true =>
        have hd : matchDecision mk cluster cgs b = some true := by
          simp [matchDecision, hmk, hf]
        simp [bundlesLoop, hmk, hcg, hf, ih, selectList, hd]
      | false =>
        have hd : matchDecision mk cluster cgs b = some false := by
          simp [matchDecision, hmk, hf]
        simp [bundlesLoop, hmk, hcg, hf, ih, selectList, hd]

/-- Claim C1: when no list call fails, BundlesForCluster returns no error,
the two lists are disjoint, and every in-scope bundle whose matcher can be
built lands in bundlesToRefresh exactly when its matcher matches the cluster
and in bundlesToCleanup exactly otherwise — in exactly one of the two. -/
theorem bundlesForCluster_partition (q : KClient)
    (mk : Bundle → Except String MatcherFun) (cluster : Cluster)
    (cgs : List ClusterGroup) (inScope r c : List Bundle) (e : Option String)
    (hcg : clusterGroupsForCluster q cluster = .ok cgs)
    (hscope : getBundlesInScopeForCluster q cluster = .ok inScope)
    (hres : BundlesForCluster q mk cluster = (r, c, e)) :
    e = none ∧
    (∀ b, b ∈ r → b ∉ c) ∧
    (∀ b f, b ∈ inScope → mk b = .ok f →
      (f cluster.name (clusterGroupsToLabelMap cgs) cluster.labels = true →
        b ∈ r ∧ b ∉ c) ∧
      (f cluster.name (clusterGroupsToLabelMap cgs) cluster.labels = false →
        b ∈ c ∧ b ∉ r)) := by
  have hloop := bundlesLoop_eq q mk cluster cgs hcg inScope [] []
  simp only [BundlesForCluster, hscope] at hres
  rw [hloop] at hres
  simp only [List.nil_append, Prod.mk.injEq] at hres
  obtain ⟨h1, h2, h3⟩ := hres
  subst h1; subst h2; subst h3
  refine ⟨rfl, ?_, ?_⟩
  · intro b hbR hbC
    have ht := ((mem_selectList mk cluster cgs true inScope b).mp hbR).2
    have hf := ((mem_selectList mk cluster cgs false inScope b).mp hbC).2
    rw [ht] at hf
    exact absurd hf (by decide)
  · intro b f hb hmk
    constructor
    · intro hf
      have hd : matchDecision mk cluster cgs b = some true := by
        simp [matchDecision, hmk, hf]
      refine ⟨(mem_selectList mk cluster cgs true inScope b).mpr ⟨hb, hd⟩, ?_⟩
      intro hbC
      have := ((mem_selectList mk cluster cgs false inScope b).mp hbC).2
      rw [hd] at this
      exact absurd this (by decide)
    · intro hf
      have hd : matchDecision mk cluster cgs b = some false := by
        simp [matchDecision, hmk, hf]
      refine ⟨(mem_selectList mk cluster cgs false inScope b).mpr ⟨hb, hd⟩, ?_⟩
      intro hbR
      have := ((mem_selectList mk cluster cgs true inScope b).mp hbR).2
      rw [hd] at this
      exact absurd this (by decide)

/-- A bundle, cluster, client and matcher used by the query witnesses. -/
def demoBundle : Bundle := ⟨"ns1", "b1", [], []⟩

def demoCluster : Cluster := ⟨"ns1", "c1", []⟩

def demoClient : KClient :=
  ⟨fun _ => .ok [demoBundle], fun _ _ => .ok [], .ok [], fun _ => .ok [],
   fun n => .ok ⟨n, []⟩⟩

def demoMk : Bundle → Except String MatcherFun :=
  fun _ => .ok (fun _ _ _ => true)

/-- Witness for C1: one in-scope bundle with an always-matching matcher ends
up in the refresh list only. -/
theorem bundlesForCluster_partition_witness :
    BundlesForCluster demoClient demoMk demoCluster =
      ([demoBundle], [], none) ∧
    ((none : Option String) = none ∧
     (∀ b, b ∈ [demoBundle] → b ∉ ([] : List Bundle)) ∧
     (∀ b f, b ∈ [demoBundle] → demoMk b = .ok f →
       (f demoCluster.name (clusterGroupsToLabelMap []) demoCluster.labels = true →
         b ∈ [demoBundle] ∧ b ∉ ([] : List Bundle)) ∧
       (f demoCluster.name (clusterGroupsToLabelMap []) demoCluster.labels = false →
         b ∈ ([] : List Bundle) ∧ b ∉ [demoBundle]))) :=
  ⟨rfl, bundlesForCluster_partition demoClient demoMk demoCluster []
    [demoBundle] [demoBundle] [] none rfl rfl rfl⟩

/-- Claim C5: a BundleNamespaceMapping missing its bundle selector or its
namespace selector builds a no-match mapping: Bundles yields the empty list
and MatchesNamespace is false for every target namespace. -/
theorem bundleMapping_nil_selector_matches_nothing
    (m : BundleNamespaceMapping) (q : KClient) (ns : String)
    (h : m.bundleSelector = none ∨ m.namespaceSelector = none) :
    ∃ bm, newBundleMapping m = .ok bm ∧ bm.noMatch = true ∧
      BundleMapping.Bundles bm q = .ok [] ∧
      BundleMapping.MatchesNamespace bm q ns = false := by
  have hcond : (m.bundleSelector.isNone || m.namespaceSelector.isNone) = true := by
    rcases h with h | h <;> simp [h]
  exact ⟨⟨m.ns, none, none, true⟩, by simp [newBundleMapping, hcond], rfl,
    by simp [BundleMapping.Bundles], by simp [BundleMapping.MatchesNamespace]⟩

/-- A mapping with a nil bundle selector, for the C5 witness. -/
def demoMappingNilBundleSel : BundleNamespaceMapping :=
  ⟨"mns", "m1", none, some ⟨fun _ => true, true⟩⟩

/-- Witness for C5 at a concrete mapping with a nil bundle selector. -/
theorem bundleMapping_nil_selector_matches_nothing_witness :
    (demoMappingNilBundleSel.bundleSelector = none ∨
      demoMappingNilBundleSel.namespaceSelector = none) ∧
    ∃ bm, newBundleMapping demoMappingNilBundleSel = .ok bm ∧
      bm.noMatch = true ∧
      BundleMapping.Bundles bm demoClient = .ok [] ∧
      BundleMapping.MatchesNamespace bm demoClient "any-target-ns" = false :=
  ⟨Or.inl rfl,
   bundleMapping_nil_selector_matches_nothing demoMappingNilBundleSel
     demoClient "any-target-ns" (Or.inl rfl)⟩

theorem bundlesLoop_abort (q : KClient) (mk : Bundle → Except String MatcherFun)
    (cluster : Cluster) (e : String)
    (hcg : clusterGroupsForCluster q cluster = .error e) :
    ∀ l r c, (∃ b ∈ l, ∃ f, mk b = .ok f) →
      bundlesLoop q mk cluster l r c = ([], [], some e) := by
  intro l
  induction l with
  | nil => intro r c h; simp at h
  | cons b rest ih =>
    intro r c h
    cases hmk : mk b with
    | ok f => simp [bundlesLoop, hmk, hcg]
    | error msg =>
      rcases h with ⟨b', hb', f, hf⟩
      rcases List.mem_cons.mp hb' with rfl | hmem
      · rw [hmk] at hf; cases hf
      · simp only [bundlesLoop, hmk]
        exact ih r c ⟨b', hmem, f, hf⟩

theorem mappingsFold_append (q : KClient) (cluster : Cluster) :
    ∀ (ms1 : List BundleNamespaceMapping) (s s1 : BundleSet),
      mappingsFold q cluster ms1 s = .ok s1 →
      ∀ ms2, mappingsFold q cluster (ms1 ++ ms2) s =
        mappingsFold q cluster ms2 s1 := by
  intro ms1
  induction ms1 with
  | nil =>
    intro s s1 h ms2
    have hs : s = s1 := by simpa [mappingsFold] using h
    subst hs
    simp
  | cons m rest ih =>
    intro s s1 h ms2
    cases hbm : newBundleMapping m with
    | error e =>
      simp only [mappingsFold, hbm] at h
      simpa [mappingsFold, hbm] using ih s s1 h ms2
    | ok bm =>
      cases hmn : BundleMapping.MatchesNamespace bm q cluster.ns with
      | false =>
        simp only [mappingsFold, hbm, hmn] at h
        simpa [mappingsFold, hbm, hmn] using ih s s1 h ms2
      | true =>
        cases hbun : BundleMapping.Bundles bm q with
        | error e =>
          simp only [mappingsFold, hbm, hmn, hbun] at h
          simp at h
        | ok l =>
          simp only [mappingsFold, hbm, hmn, hbun] at h
          simpa [mappingsFold, hbm, hmn, hbun] using
            ih (l.foldl insertSingle s) s1 h ms2

theorem mappingsFold_ok (q : KClient) (cluster : Cluster)
    (hsel : ∀ ns sel, ∃ l, q.listBundlesSel ns sel = .ok l) :
    ∀ (ms : List BundleNamespaceMapping) (s : BundleSet),
      ∃ s', mappingsFold q cluster ms s = .ok s' := by
  intro ms
  induction ms with
  | nil => intro s; exact ⟨s, rfl⟩
  | cons m rest ih =>
    intro s
    cases hbm : newBundleMapping m with
    | error e => simpa [mappingsFold, hbm] using ih s
    | ok bm =>
      by_cases hmn : BundleMapping.MatchesNamespace bm q cluster.ns
      · have hl : ∃ l, BundleMapping.Bundles bm q = .ok l := by
          by_cases hnm : bm.noMatch
          · exact ⟨[], by simp [BundleMapping.Bundles, hnm]⟩
          · obtain ⟨l, hl⟩ := hsel bm.ns (bm.bundleSelector.getD (fun _ => false))
            exact ⟨l, by simp [BundleMapping.Bundles, hnm, hl]⟩
        obtain ⟨l, hl⟩ := hl
        simpa [mappingsFold, hbm, hmn, hl] using ih (l.foldl insertSingle s)
      · simpa [mappingsFold, hbm, hmn] using ih s

/-- Claim C6: a failing API List call (bundles in the cluster namespace, the
mapping list, the cluster-group list once some in-scope bundle has a valid
matcher, or an applicable mapping's own bundle list) aborts the whole query
with an error and empty lists; when every List call succeeds, the query
never returns an error, whatever matcher constructions or mapping parses
fail. -/
theorem bundlesForCluster_error_handling (q : KClient)
    (mk : Bundle → Except String MatcherFun) (cluster : Cluster) :
    (∀ e, q.listBundles cluster.ns = .error e →
      BundlesForCluster q mk cluster = ([], [], some e)) ∧
    (∀ e bs, q.listBundles cluster.ns = .ok bs →
      q.listMappings = .error e →
      BundlesForCluster q mk cluster = ([], [], some e)) ∧
    (∀ e inScope, getBundlesInScopeForCluster q cluster = .ok inScope →
      clusterGroupsForCluster q cluster = .error e →
      (∃ b ∈ inScope, ∃ f, mk b = .ok f) →
      BundlesForCluster q mk cluster = ([], [], some e)) ∧
    (∀ bs ms cgs, q.listBundles cluster.ns = .ok bs →
      q.listMappings = .ok ms →
      clusterGroupsForCluster q cluster = .ok cgs →
      (∀ ns sel, ∃ l, q.listBundlesSel ns sel = .ok l) →
      ∃ r c, BundlesForCluster q mk cluster = (r, c, none)) ∧
    (∀ e bs ms1 m ms2 s1 bm, q.listBundles cluster.ns = .ok bs →
      q.listMappings = .ok (ms1 ++ m :: ms2) →
      mappingsFold q cluster ms1
        (bs.foldl (insertScoped cluster) newBundleSet) = .ok s1 →
      newBundleMapping m = .ok bm →
      BundleMapping.MatchesNamespace bm q cluster.ns = true →
      BundleMapping.Bundles bm q = .error e →
      BundlesForCluster q mk cluster = ([], [], some e)) := by
  refine ⟨?_, ?_, ?_, ?_, ?_⟩
  · intro e he
    simp [BundlesForCluster, getBundlesInScopeForCluster, he]
  · intro e bs hb hm
    simp [BundlesForCluster, getBundlesInScopeForCluster, hb, hm]
  · intro e inScope hscope hcg hex
    simp only [BundlesForCluster, hscope]
    exact bundlesLoop_abort q mk cluster e hcg inScope [] [] hex
  · intro bs ms cgs hb hm hcg hsel
    obtain ⟨s', hs'⟩ := mappingsFold_ok q cluster hsel ms
      (bs.foldl (insertScoped cluster) newBundleSet)
    have hscope : getBundlesInScopeForCluster q cluster =
        .ok (bundleSetBundles s') := by
      simp [getBundlesInScopeForCluster, hb, hm, hs']
    refine ⟨[] ++ selectList mk cluster cgs true (bundleSetBundles s'),
            [] ++ selectList mk cluster cgs false (bundleSetBundles s'), ?_⟩
    simp only [BundlesForCluster, hscope]
    exact bundlesLoop_eq q mk cluster cgs hcg (bundleSetBundles s') [] []
  · intro e bs ms1 m ms2 s1 bm hb hm hfold hbm hmn hbun
    have happ := mappingsFold_append q cluster ms1
      (bs.foldl (insertScoped cluster) newBundleSet) s1 hfold (m :: ms2)
    have hstep : mappingsFold q cluster (m :: ms2) s1 = .error e := by
      simp [mappingsFold, hbm, hmn, hbun]
    have hscope : getBundlesInScopeForCluster q cluster = .error e := by
      simp [getBundlesInScopeForCluster, hb, hm, happ, hstep]
    simp [BundlesForCluster, hscope]

/-- A client whose bundle List call fails, for the C6 witness. -/
def demoFailClient : KClient :=
  ⟨fun _ => .error "boom", fun _ _ => .ok [], .ok [], fun _ => .ok [],
   fun n => .ok ⟨n, []⟩⟩

/-- A mapping carrying both selectors, valid and matching everything, for
the C6 witness. -/
def demoMappingBothSel : BundleNamespaceMapping :=
  ⟨"mns2", "m2", some ⟨fun _ => true, true⟩, some ⟨fun _ => true, true⟩⟩

/-- A client on which every List succeeds except the selector-filtered
bundle List a BundleMapping issues, for the C6 witness. -/
def demoSelFailClient : KClient :=
  ⟨fun _ => .ok [], fun _ _ => .error "sel-boom", .ok [demoMappingBothSel],
   fun _ => .ok [], fun n => .ok ⟨n, []⟩⟩

/-- Witness for C6: a failing bundle List aborts the query with empty
lists, and so does the failing bundle List of an applicable mapping. -/
theorem bundlesForCluster_error_handling_witness :
    (demoFailClient.listBundles demoCluster.ns = .error "boom" ∧
     BundlesForCluster demoFailClient demoMk demoCluster =
       ([], [], some "boom")) ∧
    (demoSelFailClient.listBundlesSel "mns2" (fun _ => true) =
       .error "sel-boom" ∧
     BundlesForCluster demoSelFailClient demoMk demoCluster =
       ([], [], some "sel-boom")) :=
  ⟨⟨rfl,
    (bundlesForCluster_error_handling demoFailClient demoMk demoCluster).1
      "boom" rfl⟩,
   ⟨rfl,
    (bundlesForCluster_error_handling demoSelFailClient demoMk
        demoCluster).2.2.2.2 "sel-boom" [] [] demoMappingBothSel []
      newBundleSet ⟨"mns2", some (fun _ => true), some (fun _ => true), false⟩
      rfl rfl rfl rfl rfl rfl⟩⟩

end Fleet
